import Mathlib

/-!
Verification of `src/server/src/scripts/tts_bridge.py`, a command-line bridge
that streams synthesized audio and word-boundary events from an external
text-to-speech collaborator and emits one JSON document on standard output.

The embedding models:
* collaborator stream chunks as the tagged union the program dispatches on
  (the script reads `chunk["type"]` and branches on `"audio"` and
  `"WordBoundary"`; the spec's data model gives the per-kind fields);
* the drain loop (lines 26-36) as a fold over the arriving chunk list;
* `base64.b64encode` / standard base64 decoding over byte lists;
* `json.dumps` with its default settings (separators `", "` and `": "`,
  `ensure_ascii=True` escaping) over a JSON value type;
* the whole process run (argument parsing, request construction, the
  `try` block, output and exit code) as a function from the outcomes of
  each phase to the observable result (stdout, stderr, exit code).

Bytes are `Nat` with explicit `< 256` validity where it matters.
-/

namespace TtsBridge

/-- JSON values as `json.dumps` consumes them: strings, integers, arrays,
and objects whose fields keep insertion order (Python dicts preserve it). -/
inductive JValue where
  | str : String → JValue
  | int : Int → JValue
  | arr : List JValue → JValue
  | obj : List (String × JValue) → JValue

/-- A stream chunk from the collaborator. The script dispatches on
`chunk["type"]`: `"audio"` chunks carry raw bytes under `"data"`,
`"WordBoundary"` chunks carry `offset`, `duration` (integers) and `text`
(the spoken substring); any other kind is ignored by the loop, so only its
tag matters here. -/
inductive Chunk where
  | audio : List Nat → Chunk
  | wordBoundary : Int → Int → String → Chunk
  | other : String → Chunk
deriving DecidableEq

/-- One iteration of the drain loop (lines 30-36): an audio chunk's bytes
are appended to the byte buffer (`audio_data.extend`), a word-boundary
chunk is appended to the boundaries list (`boundaries.append(chunk)`), and
any other chunk leaves both accumulators untouched. -/
def processChunk : List Nat × List Chunk → Chunk → List Nat × List Chunk
  | (a, b), .audio d => (a ++ d, b)
  | (a, b), .wordBoundary o dur t => (a, b ++ [.wordBoundary o dur t])
  | st, .other _ => st

/-- Draining the stream: the `async for` loop processes chunks strictly in
arrival order, threading the two accumulators. -/
def drain (cs : List Chunk) (st : List Nat × List Chunk) : List Nat × List Chunk :=
  cs.foldl processChunk st

/-- The concatenation, in arrival order, of the payloads of all audio
chunks of a stream. -/
def audioPayloads : List Chunk → List Nat
  | [] => []
  | .audio d :: cs => d ++ audioPayloads cs
  | _ :: cs => audioPayloads cs

/-- Whether a chunk is a word-boundary chunk. -/
def isBoundaryChunk : Chunk → Bool
  | .wordBoundary _ _ _ => true
  | _ => false

/-- Whether a chunk is an audio chunk. -/
def isAudioChunk : Chunk → Bool
  | .audio _ => true
  | _ => false

/-- All bytes of every audio chunk are genuine byte values (`< 256`). -/
def chunkWF : Chunk → Bool
  | .audio d => d.all fun b => b < 256
  | _ => true

/-- The standard base64 alphabet, as `base64.b64encode` uses it: index
0-25 map to A-Z, 26-51 to a-z, 52-61 to 0-9, 62 to + and 63 to /. -/
def b64Char (n : Nat) : Char :=
  if n < 26 then Char.ofNat (65 + n)
  else if n < 52 then Char.ofNat (97 + (n - 26))
  else if n < 62 then Char.ofNat (48 + (n - 52))
  else if n = 62 then '+'
  else '/'

/-- Inverse of the base64 alphabet (value of an alphabet character). -/
def b64Val (c : Char) : Nat :=
  if 65 ≤ c.toNat ∧ c.toNat ≤ 90 then c.toNat - 65
  else if 97 ≤ c.toNat ∧ c.toNat ≤ 122 then c.toNat - 97 + 26
  else if 48 ≤ c.toNat ∧ c.toNat ≤ 57 then c.toNat - 48 + 52
  else if c = '+' then 62
  else 63

/-- `base64.b64encode`: bytes are taken three at a time and spread over
four sextets; a final group of one byte yields two characters and `==`
padding, a final group of two bytes three characters and `=` padding. -/
def b64EncodeGroups : List Nat → List Char
  | [] => []
  | [b0] =>
      [b64Char (b0 / 4), b64Char (b0 % 4 * 16), Char.ofNat 61, Char.ofNat 61]
  | [b0, b1] =>
      [b64Char (b0 / 4), b64Char (b0 % 4 * 16 + b1 / 16),
       b64Char (b1 % 16 * 4), Char.ofNat 61]
  | b0 :: b1 :: b2 :: rest =>
      b64Char (b0 / 4) :: b64Char (b0 % 4 * 16 + b1 / 16) ::
      b64Char (b1 % 16 * 4 + b2 / 64) :: b64Char (b2 % 64) ::
      b64EncodeGroups rest

/-- Standard base64 decoding of a padded encoding: four characters at a
time, with `=` padding cutting the final group to one or two bytes. -/
def b64DecodeGroups : List Char → List Nat
  | c0 :: c1 :: c2 :: c3 :: rest =>
      if c2 = Char.ofNat 61 then
        [b64Val c0 * 4 + b64Val c1 / 16]
      else if c3 = Char.ofNat 61 then
        [b64Val c0 * 4 + b64Val c1 / 16, b64Val c1 % 16 * 16 + b64Val c2 / 4]
      else
        (b64Val c0 * 4 + b64Val c1 / 16) ::
        (b64Val c1 % 16 * 16 + b64Val c2 / 4) ::
        (b64Val c2 % 4 * 64 + b64Val c3) ::
        b64DecodeGroups rest
  | _ => []

/-- Base64 encoding of a byte list, as the string stored under the
`"audio"` key (line 40: `base64.b64encode(audio_data).decode('utf-8')`). -/
def b64encode (bs : List Nat) : String :=
  String.mk (b64EncodeGroups bs)

/-- Base64 decoding of a string back to a byte list. -/
def b64decode (s : String) : List Nat :=
  b64DecodeGroups s.toList

/-- Lowercase hexadecimal digit, as Python's `\uXXXX` escapes use. -/
def hexDigit (n : Nat) : Char :=
  if n < 10 then Char.ofNat (48 + n) else Char.ofNat (87 + n)

/-- A six-character `\uXXXX` escape for one UTF-16 code unit. -/
def uEscape (n : Nat) : List Char :=
  [Char.ofNat 92, 'u', hexDigit (n / 4096 % 16), hexDigit (n / 256 % 16),
   hexDigit (n / 16 % 16), hexDigit (n % 16)]

/-- `json.dumps` string escaping with its default `ensure_ascii=True`:
quote and backslash get backslash escapes, the five shorthand control
escapes apply, every other printable ASCII character stands for itself,
and every other character becomes `\uXXXX` (a surrogate pair when beyond
the basic plane). -/
def escapeChar (c : Char) : List Char :=
  if c.toNat = 34 then [Char.ofNat 92, Char.ofNat 34]
  else if c.toNat = 92 then [Char.ofNat 92, Char.ofNat 92]
  else if c.toNat = 8 then [Char.ofNat 92, 'b']
  else if c.toNat = 9 then [Char.ofNat 92, 't']
  else if c.toNat = 10 then [Char.ofNat 92, 'n']
  else if c.toNat = 12 then [Char.ofNat 92, 'f']
  else if c.toNat = 13 then [Char.ofNat 92, 'r']
  else if 32 ≤ c.toNat ∧ c.toNat ≤ 126 then [c]
  else if c.toNat < 65536 then uEscape c.toNat
  else
    uEscape (55296 + (c.toNat - 65536) / 1024) ++
      uEscape (56320 + (c.toNat - 65536) % 1024)

/-- Printable ASCII, the character range `json.dumps` with
`ensure_ascii=True` emits; in particular it excludes the newline. -/
def asciiChar (c : Char) : Bool :=
  32 ≤ c.toNat && c.toNat ≤ 126

/-- A JSON string literal: quotes around the escaped characters. -/
def dumpStr (s : String) : List Char :=
  Char.ofNat 34 :: (s.data.map escapeChar).flatten ++ [Char.ofNat 34]

/-- Decimal digits of a natural number, most significant first. -/
def natDigitsAux : Nat → List Char → List Char
  | 0, acc => acc
  | n + 1, acc =>
      natDigitsAux ((n + 1) / 10) (Char.ofNat (48 + (n + 1) % 10) :: acc)

/-- Decimal representation of a natural number. -/
def natDigits (n : Nat) : List Char :=
  if n = 0 then ['0'] else natDigitsAux n []

/-- Python's representation of an integer, as `json.dumps` prints it. -/
def intRepr (i : Int) : List Char :=
  if i < 0 then '-' :: natDigits i.natAbs else natDigits i.toNat

mutual

/-- `json.dumps` with its defaults (item separator `", "`, key separator
`": "`), restricted to the value forms the script can produce. -/
def dumpVal : JValue → List Char
  | .str s => dumpStr s
  | .int i => intRepr i
  | .arr xs => Char.ofNat 91 :: dumpArr xs ++ [Char.ofNat 93]
  | .obj fs => Char.ofNat 123 :: dumpObj fs ++ [Char.ofNat 125]

/-- Array elements joined by `", "`. -/
def dumpArr : List JValue → List Char
  | [] => []
  | v :: rest =>
      dumpVal v ++ (if rest.isEmpty then [] else [',', ' ']) ++ dumpArr rest

/-- Object fields `"key": value` joined by `", "`. -/
def dumpObj : List (String × JValue) → List Char
  | [] => []
  | (k, v) :: rest =>
      dumpStr k ++ ':' :: ' ' :: dumpVal v ++
        (if rest.isEmpty then [] else [',', ' ']) ++ dumpObj rest

end

/-- The dictionary form of a chunk, as `json.dumps` would serialize it.
Line 36 appends the collaborator's chunk dictionary itself to the
`boundaries` list; that dictionary carries its `"type"` tag — the very
key line 33 dispatches on — alongside `offset`, `duration` and `text`, in
that insertion order. Only word-boundary chunks ever reach serialization
(the drain lemma below); the other cases only record their tag. -/
def chunkObj : Chunk → JValue
  | .wordBoundary o d t =>
      .obj [("type", .str "WordBoundary"), ("offset", .int o),
            ("duration", .int d), ("text", .str t)]
  | .audio _ => .obj [("type", .str "audio")]
  | .other k => .obj [("type", .str k)]

/-- The result document built on lines 39-42: the base64-encoded audio
buffer under `"audio"` and the accumulated boundary chunks under
`"boundaries"`, in that key order. -/
def resultDoc (acc : List Nat × List Chunk) : JValue :=
  .obj [("audio", .str (b64encode acc.1)),
        ("boundaries", .arr (acc.2.map chunkObj))]

/-- The top-level keys of a JSON object, in order. -/
def objKeys : JValue → List String
  | .obj fs => fs.map Prod.fst
  | _ => []

/-- The entries of the `boundaries` array of a result document. -/
def boundariesOf (v : JValue) : List JValue :=
  match v with
  | .obj fs =>
      match fs.lookup "boundaries" with
      | some (.arr xs) => xs
      | _ => []
  | _ => []

/-- The four parsed parameters (lines 9-15). -/
structure Args where
  text : String
  voice : String
  rate : String
  pitch : String
deriving DecidableEq

/-- Argument parsing at the level the script configures it (lines 9-15):
`--text` is required; `--voice`, `--rate` and `--pitch` default to
`en-US-GuyNeural`, `+0%` and `+0Hz` when not supplied. `none` for `text`
stands for the required flag being absent on the command line. -/
def parseArgs (text voice rate pitch : Option String) : Except String Args :=
  match text with
  | none => .error "the following arguments are required: --text"
  | some t =>
      .ok { text := t, voice := voice.getD "en-US-GuyNeural",
            rate := rate.getD "+0%", pitch := pitch.getD "+0Hz" }

/-- The configuration handed to the synthesis session constructor. -/
structure CommunicateConfig where
  text : String
  voice : String
  rate : String
  pitch : String
  boundary : String
deriving DecidableEq

/-- Construction of the synthesis session (lines 18-24): text, voice,
rate and pitch come from the parsed arguments unchanged, and
word-boundary events are explicitly requested by passing the boundary
option `WordBoundary`. -/
def mkCommunicate (a : Args) : CommunicateConfig :=
  { text := a.text, voice := a.voice, rate := a.rate, pitch := a.pitch,
    boundary := "WordBoundary" }

/-- The observable outcome of one process run. -/
structure RunResult where
  stdout : String
  stderr : String
  exitCode : Nat
deriving DecidableEq

/-- Models the host language's argument parser: when the required
`--text` flag is missing (or a flag is malformed), `argparse` prints the
usage line and the error to standard error and exits the process with
status 2 before the rest of `main` runs. -/
def argparseFailure (msg : String) : RunResult :=
  { stdout := ""
    stderr := "usage: tts_bridge.py [-h] --text TEXT [--voice VOICE] [--rate RATE] [--pitch PITCH]\ntts_bridge.py: error: " ++ msg ++ "\n"
    exitCode := 2 }

/-- Models the host runtime: an exception raised outside any handler —
here, one raised by the session constructor on lines 18-24, which sit
before the `try` of line 29 — aborts the process with a traceback on
standard error and exit status 1. -/
def uncaughtFailure (msg : String) : RunResult :=
  { stdout := ""
    stderr := "Traceback (most recent call last):\n" ++ msg ++ "\n"
    exitCode := 1 }

/-- One whole run of the script as a function of each phase's outcome:
the parse outcome, an optional fault raised while constructing the
synthesis session, the chunks the stream delivers in arrival order, and
an optional fault raised inside the `try` block while opening or draining
the stream (after the delivered chunks). Mirrors the control flow of
`main` (lines 9-50): a fault inside the `try` reaches the handler of
lines 47-50, which prints `Error: ` and the description to standard error
and exits with status 1, discarding the accumulators; on normal
completion the result document used on lines 39-45 is printed as one line
to standard output and the process ends with status 0. -/
def runBridge (parsed : Except String Args) (constructFault : Option String)
    (chunks : List Chunk) (streamFault : Option String) : RunResult :=
  match parsed with
  | .error msg => argparseFailure msg
  | .ok _ =>
      match constructFault with
      | some msg => uncaughtFailure msg
      | none =>
          let acc := drain chunks ([], [])
          match streamFault with
          | some msg =>
              { stdout := "", stderr := "Error: " ++ msg ++ "\n", exitCode := 1 }
          | none =>
              { stdout := String.mk (dumpVal (resultDoc acc) ++ [Char.ofNat 10])
                stderr := ""
                exitCode := 0 }

/-! ## Helper lemmas -/

/-- The base64 alphabet map is inverted by `b64Val` on sextets. -/
theorem b64Val_b64Char (n : Nat) (h : n < 64) : b64Val (b64Char n) = n := by
  have all : ∀ m : Fin 64, b64Val (b64Char m.val) = m.val := by decide
  exact all ⟨n, h⟩

/-- No sextet encodes to the padding character. -/
theorem b64Char_ne_pad (n : Nat) (h : n < 64) : b64Char n ≠ Char.ofNat 61 := by
  have all : ∀ m : Fin 64, b64Char m.val ≠ Char.ofNat 61 := by decide
  exact all ⟨n, h⟩

/-- Base64 decoding inverts base64 encoding on genuine byte lists. -/
theorem b64DecodeGroups_b64EncodeGroups (bs : List Nat) (h : ∀ b ∈ bs, b < 256) :
    b64DecodeGroups (b64EncodeGroups bs) = bs := by
  induction bs using b64EncodeGroups.induct with
  | case1 => rfl
  | case2 b0 =>
      have hb0 : b0 < 256 := h b0 (by simp)
      simp only [b64EncodeGroups, b64DecodeGroups]
      rw [if_pos trivial]
      rw [b64Val_b64Char _ (by omega), b64Val_b64Char _ (by omega)]
      simp only [List.cons.injEq, and_true]
      omega
  | case3 b0 b1 =>
      have hb0 : b0 < 256 := h b0 (by simp)
      have hb1 : b1 < 256 := h b1 (by simp)
      simp only [b64EncodeGroups, b64DecodeGroups]
      rw [if_neg (b64Char_ne_pad _ (by omega)), if_pos trivial]
      rw [b64Val_b64Char _ (by omega), b64Val_b64Char _ (by omega),
        b64Val_b64Char _ (by omega)]
      simp only [List.cons.injEq, and_true]
      omega
  | case4 b0 b1 b2 rest ih =>
      have hb0 : b0 < 256 := h b0 (by simp)
      have hb1 : b1 < 256 := h b1 (by simp)
      have hb2 : b2 < 256 := h b2 (by simp)
      simp only [b64EncodeGroups, b64DecodeGroups]
      rw [if_neg (b64Char_ne_pad _ (by omega)), if_neg (b64Char_ne_pad _ (by omega))]
      rw [b64Val_b64Char _ (by omega), b64Val_b64Char _ (by omega),
        b64Val_b64Char _ (by omega), b64Val_b64Char _ (by omega)]
      have hrest : b64DecodeGroups (b64EncodeGroups rest) = rest :=
        ih fun b hb => h b (by simp [hb])
      simp only [hrest, List.cons.injEq, and_true]
      omega

/-- Draining the stream from any starting state appends, to the byte
buffer, the concatenation of the audio payloads in arrival order and, to
the boundaries list, exactly the word-boundary chunks in arrival order. -/
theorem drain_eq (cs : List Chunk) (a : List Nat) (b : List Chunk) :
    drain cs (a, b) = (a ++ audioPayloads cs, b ++ cs.filter isBoundaryChunk) := by
  induction cs generalizing a b with
  | nil => simp [drain, audioPayloads]
  | cons c cs ih =>
      cases c with
      | audio d =>
          simp only [drain, List.foldl_cons, processChunk] at ih ⊢
          rw [ih]
          simp [audioPayloads, isBoundaryChunk]
      | wordBoundary o du t =>
          simp only [drain, List.foldl_cons, processChunk] at ih ⊢
          rw [ih]
          simp [audioPayloads, isBoundaryChunk]
      | other k =>
          simp only [drain, List.foldl_cons, processChunk] at ih ⊢
          rw [ih]
          simp [audioPayloads, isBoundaryChunk]

/-- In a stream of well-formed chunks every accumulated byte is a genuine
byte value. -/
theorem audioPayloads_lt (cs : List Chunk) (h : cs.all chunkWF = true) :
    ∀ b ∈ audioPayloads cs, b < 256 := by
  induction cs with
  | nil => simp [audioPayloads]
  | cons c cs ih =>
      simp only [List.all_cons, Bool.and_eq_true] at h
      cases c with
      | audio d =>
          intro b hb
          simp only [audioPayloads, List.mem_append] at hb
          rcases hb with hb | hb
          · have := h.1
            simp only [chunkWF, List.all_eq_true, decide_eq_true_eq] at this
            exact this b hb
          · exact ih h.2 b hb
      | wordBoundary o du t => exact ih h.2
      | other k => exact ih h.2

/-- A stream with no audio chunks accumulates no bytes. -/
theorem audioPayloads_eq_nil (cs : List Chunk) (h : cs.filter isAudioChunk = []) :
    audioPayloads cs = [] := by
  induction cs with
  | nil => rfl
  | cons c cs ih =>
      cases c with
      | audio d => simp [List.filter, isAudioChunk] at h
      | wordBoundary o du t =>
          simp only [List.filter, isAudioChunk] at h
          exact ih h
      | other k =>
          simp only [List.filter, isAudioChunk] at h
          exact ih h

/-- Hexadecimal digits are printable ASCII. -/
theorem hexDigit_ascii (n : Nat) (h : n < 16) : asciiChar (hexDigit n) = true := by
  have all : ∀ m : Fin 16, asciiChar (hexDigit m.val) = true := by decide
  exact all ⟨n, h⟩

/-- Every character of a `\uXXXX` escape is printable ASCII. -/
theorem uEscape_ascii (n : Nat) : ∀ c ∈ uEscape n, asciiChar c = true := by
  intro c hc
  simp only [uEscape, List.mem_cons, List.not_mem_nil, or_false] at hc
  rcases hc with h | h | h | h | h | h <;> subst h
  · decide
  · decide
  · exact hexDigit_ascii _ (Nat.mod_lt _ (by norm_num))
  · exact hexDigit_ascii _ (Nat.mod_lt _ (by norm_num))
  · exact hexDigit_ascii _ (Nat.mod_lt _ (by norm_num))
  · exact hexDigit_ascii _ (Nat.mod_lt _ (by norm_num))

/-- String escaping emits only printable ASCII characters. -/
theorem escapeChar_ascii (c : Char) : ∀ d ∈ escapeChar c, asciiChar d = true := by
  intro d hd
  unfold escapeChar at hd
  split_ifs at hd with h1 h2 h3 h4 h5 h6 h7 h8 h9
  · simp only [List.mem_cons, List.not_mem_nil, or_false] at hd
    rcases hd with h | h <;> subst h <;> decide
  · simp only [List.mem_cons, List.not_mem_nil, or_false] at hd
    rcases hd with h | h <;> subst h <;> decide
  · simp only [List.mem_cons, List.not_mem_nil, or_false] at hd
    rcases hd with h | h <;> subst h <;> decide
  · simp only [List.mem_cons, List.not_mem_nil, or_false] at hd
    rcases hd with h | h <;> subst h <;> decide
  · simp only [List.mem_cons, List.not_mem_nil, or_false] at hd
    rcases hd with h | h <;> subst h <;> decide
  · simp only [List.mem_cons, List.not_mem_nil, or_false] at hd
    rcases hd with h | h <;> subst h <;> decide
  · simp only [List.mem_cons, List.not_mem_nil, or_false] at hd
    rcases hd with h | h <;> subst h <;> decide
  · simp only [List.mem_singleton] at hd
    subst hd
    simp only [asciiChar, Bool.and_eq_true, decide_eq_true_eq]
    omega
  · exact uEscape_ascii _ d hd
  · rcases List.mem_append.mp hd with h | h
    · exact uEscape_ascii _ d h
    · exact uEscape_ascii _ d h

/-- Decimal digit characters are printable ASCII. -/
theorem digitChar_ascii (m : Nat) (h : m < 10) :
    asciiChar (Char.ofNat (48 + m)) = true := by
  have all : ∀ k : Fin 10, asciiChar (Char.ofNat (48 + k.val)) = true := by decide
  exact all ⟨m, h⟩

/-- The decimal printer only emits printable ASCII. -/
theorem natDigitsAux_ascii (n : Nat) (acc : List Char) :
    (∀ c ∈ acc, asciiChar c = true) → ∀ c ∈ natDigitsAux n acc, asciiChar c = true := by
  induction n, acc using natDigitsAux.induct with
  | case1 acc => intro hacc; simpa [natDigitsAux] using hacc
  | case2 n acc ih =>
      intro hacc
      rw [natDigitsAux]
      apply ih
      intro c hc
      rcases List.mem_cons.mp hc with h | h
      · subst h; exact digitChar_ascii _ (Nat.mod_lt _ (by norm_num))
      · exact hacc c h

/-- `natDigits` only emits printable ASCII. -/
theorem natDigits_ascii (n : Nat) : ∀ c ∈ natDigits n, asciiChar c = true := by
  unfold natDigits
  split
  · intro c hc
    simp only [List.mem_singleton] at hc
    subst hc; decide
  · exact natDigitsAux_ascii n [] (by simp)

/-- The integer printer only emits printable ASCII. -/
theorem intRepr_ascii (i : Int) : ∀ c ∈ intRepr i, asciiChar c = true := by
  unfold intRepr
  split
  · intro c hc
    rcases List.mem_cons.mp hc with h | h
    · subst h; decide
    · exact natDigits_ascii _ c h
  · exact natDigits_ascii _

/-- A serialized string literal is printable ASCII throughout. -/
theorem dumpStr_ascii (s : String) : ∀ c ∈ dumpStr s, asciiChar c = true := by
  intro c hc
  unfold dumpStr at hc
  rcases List.mem_cons.mp hc with h | h
  · subst h; decide
  rcases List.mem_append.mp h with h | h
  · obtain ⟨t, ht, hct⟩ := List.mem_flatten.mp h
    obtain ⟨d, _, hdt⟩ := List.mem_map.mp ht
    exact escapeChar_ascii d c (hdt ▸ hct)
  · simp only [List.mem_singleton] at h
    subst h; decide

/-- The whole serializer emits only printable ASCII — in particular the
serialized document contains no newline, so the printed output is a
single line. -/
theorem dumpVal_ascii (v : JValue) : ∀ c ∈ dumpVal v, asciiChar c = true := by
  refine dumpVal.induct
    (fun v => ∀ c ∈ dumpVal v, asciiChar c = true)
    (fun fs => ∀ c ∈ dumpObj fs, asciiChar c = true)
    (fun xs => ∀ c ∈ dumpArr xs, asciiChar c = true)
    ?_ ?_ ?_ ?_ ?_ ?_ ?_ ?_ v
  · intro s; exact dumpStr_ascii s
  · intro i; exact intRepr_ascii i
  · intro xs ih c hc
    rw [dumpVal] at hc
    rcases List.mem_cons.mp hc with h | h
    · subst h; decide
    rcases List.mem_append.mp h with h | h
    · exact ih c h
    · simp only [List.mem_singleton] at h
      subst h; decide
  · intro fs ih c hc
    rw [dumpVal] at hc
    rcases List.mem_cons.mp hc with h | h
    · subst h; decide
    rcases List.mem_append.mp h with h | h
    · exact ih c h
    · simp only [List.mem_singleton] at h
      subst h; decide
  · intro c hc; simp [dumpArr] at hc
  · intro v rest ihv ihrest c hc
    rw [dumpArr] at hc
    rcases List.mem_append.mp hc with h | h
    · rcases List.mem_append.mp h with h | h
      · exact ihv c h
      · split at h
        · simp at h
        · simp only [List.mem_cons, List.not_mem_nil, or_false] at h
          rcases h with h | h <;> subst h <;> decide
    · exact ihrest c h
  · intro c hc; simp [dumpObj] at hc
  · intro k v rest ihv ihrest c hc
    rw [dumpObj] at hc
    rcases List.mem_append.mp hc with h | h
    · rcases List.mem_append.mp h with h | h
      · rcases List.mem_append.mp h with h | h
        · exact dumpStr_ascii k c h
        · rcases List.mem_cons.mp h with h | h
          · subst h; decide
          rcases List.mem_cons.mp h with h | h
          · subst h; decide
          exact ihv c h
      · split at h
        · simp at h
        · simp only [List.mem_cons, List.not_mem_nil, or_false] at h
          rcases h with h | h <;> subst h <;> decide
    · exact ihrest c h

/-! ## Claim theorems -/

/-- C1: for every successful run, the value of the `audio` field of the
emitted JSON document, once base64-decoded, equals the exact byte
concatenation, in arrival order, of the payloads of all audio chunks
produced by the collaborator stream for that request. -/
theorem audio_field_decodes_to_concat (cs : List Chunk) (h : cs.all chunkWF = true) :
    ∃ bnds, resultDoc (drain cs ([], [])) =
        .obj [("audio", .str (b64encode (audioPayloads cs))), ("boundaries", bnds)] ∧
      b64decode (b64encode (audioPayloads cs)) = audioPayloads cs := by
  refine ⟨.arr ((cs.filter isBoundaryChunk).map chunkObj), ?_, ?_⟩
  · simp [resultDoc, drain_eq]
  · show b64DecodeGroups (String.mk (b64EncodeGroups (audioPayloads cs))).toList = _
    exact b64DecodeGroups_b64EncodeGroups _ (audioPayloads_lt cs h)

/-- Witness for C1 at the spec's example stream: one audio chunk `[1, 2]`
then one boundary chunk. -/
theorem audio_field_decodes_to_concat_witness :
    ([Chunk.audio [1, 2], Chunk.wordBoundary 0 500000 "Hi"].all chunkWF = true) ∧
      ∃ bnds,
        resultDoc (drain [Chunk.audio [1, 2], Chunk.wordBoundary 0 500000 "Hi"] ([], [])) =
            .obj [("audio", .str (b64encode (audioPayloads
                    [Chunk.audio [1, 2], Chunk.wordBoundary 0 500000 "Hi"]))),
                  ("boundaries", bnds)] ∧
          b64decode (b64encode (audioPayloads
              [Chunk.audio [1, 2], Chunk.wordBoundary 0 500000 "Hi"])) =
            audioPayloads [Chunk.audio [1, 2], Chunk.wordBoundary 0 500000 "Hi"] :=
  ⟨by decide, audio_field_decodes_to_concat _ (by decide)⟩

/-- C2 is false as stated: line 36 appends the collaborator's chunk
dictionary itself, so each emitted boundary entry also carries the chunk's
`type` tag — its field list is `type, offset, duration, text`, not exactly
`offset, duration, text`. Concrete run: a single boundary chunk. -/
theorem boundary_entry_retains_type_key :
    (boundariesOf (resultDoc (drain [Chunk.wordBoundary 0 500000 "Hi"] ([], [])))).map objKeys
        = [["type", "offset", "duration", "text"]] ∧
      (["type", "offset", "duration", "text"] : List String) ≠
        ["offset", "duration", "text"] :=
  ⟨rfl, by decide⟩

/-- C2 amended: the `boundaries` field is an ordered sequence matching
the arrival order of word-boundary chunks, and each entry preserves the
collaborator's original offset, duration and text values unmodified —
but each entry is the whole chunk object, which additionally retains the
chunk's `type` tag field. -/
theorem boundaries_preserve_arrival_order (cs : List Chunk) :
    resultDoc (drain cs ([], [])) =
        .obj [("audio", .str (b64encode (audioPayloads cs))),
              ("boundaries", .arr ((cs.filter isBoundaryChunk).map chunkObj))] ∧
      ∀ o d t, chunkObj (.wordBoundary o d t) =
        .obj [("type", .str "WordBoundary"), ("offset", .int o),
              ("duration", .int d), ("text", .str t)] := by
  constructor
  · simp [resultDoc, drain_eq]
  · intro o d t; rfl

/-- C3: for every run in which a fault is raised while draining the
stream, standard output is empty — whatever bytes or boundaries were
already accumulated are discarded — standard error is non-empty, and the
exit code is non-zero. -/
theorem drain_fault_silences_stdout (a : Args) (cs : List Chunk) (msg : String) :
    (runBridge (.ok a) none cs (some msg)).stdout = "" ∧
      (runBridge (.ok a) none cs (some msg)).stderr ≠ "" ∧
      (runBridge (.ok a) none cs (some msg)).exitCode ≠ 0 := by
  refine ⟨rfl, ?_, by simp [runBridge]⟩
  show ("Error: " ++ msg ++ "\n") ≠ ""
  intro hEq
  have hlen : ("Error: " ++ msg ++ "\n").length = 0 := by rw [hEq]; rfl
  rw [String.length_append, String.length_append] at hlen
  have h7 : ("Error: " : String).length = 7 := rfl
  have h1 : ("\n" : String).length = 1 := rfl
  omega

/-- C4 is false as stated: a fault raised while constructing the
synthesis session (lines 18-24 sit before the `try` of line 29) escapes
`main` as an unhandled exception, so standard error carries a traceback
that is not prefixed with `Error: `; and a missing required `--text`
flag is reported by the argument parser, which exits with code 2, not 1. -/
theorem uncaught_construct_fault_cex :
    ((runBridge (.ok { text := "Hi", voice := "en-US-GuyNeural", rate := "bad", pitch := "+0Hz" })
          (some "Invalid rate bad.") [] none).stderr.take 7 ≠ "Error: ") ∧
      (runBridge (parseArgs none none none none) none [] none).exitCode = 2 := by
  constructor
  · decide
  · rfl

/-- C4 amended: a fault raised inside the `try` block, while opening or
draining the stream, is written to standard error as its description
prefixed with `Error: ` and the process exits with code 1; a fault while
parsing the parameters is reported by the argument parser itself with
exit code 2, and a fault while constructing the synthesis request aborts
with an unhandled-exception traceback, exit code 1, without the prefix. -/
theorem fault_reporting_by_phase (a : Args) (cs : List Chunk) (msg : String) :
    runBridge (.ok a) none cs (some msg) =
        { stdout := "", stderr := "Error: " ++ msg ++ "\n", exitCode := 1 } ∧
      (∀ m sf, runBridge (.ok a) (some m) cs sf = uncaughtFailure m ∧
        (uncaughtFailure m).exitCode = 1) ∧
      ∀ m cf sf, runBridge (.error m) cf cs sf = argparseFailure m ∧
        (argparseFailure m).exitCode = 2 := by
  exact ⟨rfl, fun m sf => ⟨rfl, rfl⟩, fun m cf sf => ⟨rfl, rfl⟩⟩

/-- The serialized document contains no newline character. -/
theorem dumpVal_count_newline (v : JValue) : (dumpVal v).count (Char.ofNat 10) = 0 := by
  rw [List.count_eq_zero]
  intro hmem
  exact absurd (dumpVal_ascii v _ hmem) (by decide)

/-- C5: for every successful run, standard output is exactly one line —
one trailing newline, none inside the serialized document — that line is
the JSON serialization of an object whose top-level keys are exactly
`audio` and `boundaries`, and the process exits with code 0. -/
theorem success_emits_single_json_line (a : Args) (cs : List Chunk) :
    ∃ s bnds,
      runBridge (.ok a) none cs none =
          { stdout := String.mk (dumpVal (.obj [("audio", .str s), ("boundaries", .arr bnds)])
              ++ [Char.ofNat 10])
            stderr := ""
            exitCode := 0 } ∧
        objKeys (.obj [("audio", JValue.str s), ("boundaries", JValue.arr bnds)])
          = ["audio", "boundaries"] ∧
        (dumpVal (.obj [("audio", .str s), ("boundaries", .arr bnds)])
            ++ [Char.ofNat 10]).count (Char.ofNat 10) = 1 ∧
        (dumpVal (.obj [("audio", .str s), ("boundaries", .arr bnds)])
            ++ [Char.ofNat 10]).getLast? = some (Char.ofNat 10) := by
  refine ⟨b64encode ((drain cs ([], [])).1), ((drain cs ([], [])).2).map chunkObj,
    rfl, rfl, ?_, ?_⟩
  · rw [List.count_append, dumpVal_count_newline]
    rfl
  · rw [List.getLast?_append_cons]
    rfl

/-- C6: a stream that completes normally with zero audio chunks yields an
`audio` field that decodes to the empty byte sequence, one with zero
boundary chunks yields an empty `boundaries` sequence, and neither case
is an error: the exit code is still 0. -/
theorem empty_stream_components (a : Args) (cs : List Chunk) :
    (cs.filter isAudioChunk = [] →
        b64decode (b64encode ((drain cs ([], [])).1)) = []) ∧
      (cs.filter isBoundaryChunk = [] → (drain cs ([], [])).2 = []) ∧
      (runBridge (.ok a) none cs none).exitCode = 0 := by
  refine ⟨?_, ?_, rfl⟩
  · intro hshape
    rw [drain_eq]
    rw [List.nil_append, audioPayloads_eq_nil cs hshape]
    rfl
  · intro hshape
    rw [drain_eq, hshape]
    rfl

/-- Witness for C6: a stream holding only a chunk of some other kind has
no audio chunks and no boundary chunks. -/
theorem empty_stream_components_witness :
    b64decode (b64encode ((drain [Chunk.other "SessionEnd"] ([], [])).1)) = [] ∧
      (drain [Chunk.other "SessionEnd"] ([], [])).2 = [] ∧
      (runBridge (.ok { text := "Hi", voice := "en-US-GuyNeural", rate := "+0%", pitch := "+0Hz" })
          none [Chunk.other "SessionEnd"] none).exitCode = 0 := by
  have h := empty_stream_components
    { text := "Hi", voice := "en-US-GuyNeural", rate := "+0%", pitch := "+0Hz" }
    [Chunk.other "SessionEnd"]
  exact ⟨h.1 rfl, h.2.1 rfl, h.2.2⟩

/-- C7: a chunk whose kind is neither audio nor word-boundary is ignored:
processing it leaves both accumulators exactly as they were. -/
theorem other_chunk_kinds_ignored (acc : List Nat × List Chunk) (kind : String) :
    processChunk acc (.other kind) = acc := by
  obtain ⟨a, b⟩ := acc
  rfl

/-- C8: the synthesis session is configured exactly from the parsed
parameters — text is required (parsing without it fails), voice defaults
to the named neural voice `en-US-GuyNeural`, rate and pitch default to
the no-adjustment strings `+0%` and `+0Hz`, and the session explicitly
requests word-boundary events. -/
theorem session_configured_from_params (t : String) (v r p : Option String) :
    (parseArgs (some t) v r p).map mkCommunicate =
        .ok { text := t, voice := v.getD "en-US-GuyNeural", rate := r.getD "+0%",
              pitch := p.getD "+0Hz", boundary := "WordBoundary" } ∧
      parseArgs none v r p = .error "the following arguments are required: --text" :=
  ⟨rfl, rfl⟩

/-- C9: the bridging logic is a deterministic function of the request
parameters and the chunk sequence: two runs whose phase outcomes and
chunk sequences are identical produce identical observable output. -/
theorem bridge_deterministic (p₁ p₂ : Except String Args) (c₁ c₂ : Option String)
    (s₁ s₂ : List Chunk) (f₁ f₂ : Option String)
    (hp : p₁ = p₂) (hc : c₁ = c₂) (hs : s₁ = s₂) (hf : f₁ = f₂) :
    runBridge p₁ c₁ s₁ f₁ = runBridge p₂ c₂ s₂ f₂ := by
  subst hp; subst hc; subst hs; subst hf; rfl

/-- Witness for C9 at a concrete repeated run. -/
theorem bridge_deterministic_witness :
    runBridge (.ok { text := "Hi", voice := "en-US-GuyNeural", rate := "+0%", pitch := "+0Hz" })
        none [Chunk.audio [1, 2], Chunk.wordBoundary 0 500000 "Hi"] none =
      runBridge (.ok { text := "Hi", voice := "en-US-GuyNeural", rate := "+0%", pitch := "+0Hz" })
        none [Chunk.audio [1, 2], Chunk.wordBoundary 0 500000 "Hi"] none :=
  bridge_deterministic _ _ _ _ _ _ _ _ rfl rfl rfl rfl

/-- C10: both accumulators are append-only: processing any chunk extends
each accumulator at the end (possibly by nothing) and never modifies,
reorders or removes what was already accumulated. -/
theorem accumulators_append_only (acc : List Nat × List Chunk) (c : Chunk) :
    ∃ ds bs, processChunk acc c = (acc.1 ++ ds, acc.2 ++ bs) := by
  obtain ⟨a, b⟩ := acc
  cases c with
  | audio d => exact ⟨d, [], by simp [processChunk]⟩
  | wordBoundary o du t => exact ⟨[], [.wordBoundary o du t], by simp [processChunk]⟩
  | other k => exact ⟨[], [], by simp [processChunk]⟩

end TtsBridge
